import Mathlib

/-!
Verification development for the Elementary.audio sample-sequencing test
component (src/src/test-component.js and the earlier component versions
kept under src/unnamed/).  The definitions below are a shallow embedding
of the JavaScript source: JS numbers are modelled as rationals, JS Maps
(which iterate in insertion order and have unique keys) as association
lists in insertion order, and the declarative Elementary audio graph as
an inductive signal AST.
-/

namespace SampleSeq

/-- Fixed bound on concurrent one-off voices (`this.maxVoices = 4`). -/
def maxVoices : Nat := 4

/-- JS `Math.round`: round half toward positive infinity. -/
def jsRound (q : ℚ) : ℤ := ⌊q + 1/2⌋

/-! ### The Sequence class (test-component.js lines 5-93) -/

/-- One entry of `Sequence.elements` as pushed by `addElement`. -/
structure Element where
  soundUrl : String
  offset : ℚ
  shift : ℚ
  stretch : ℚ
  duration : ℚ
  deriving DecidableEq

/-- `addElement` pushes an element with default parameters. -/
def Element.new (soundUrl : String) : Element :=
  { soundUrl := soundUrl, offset := 1, shift := 0, stretch := 1, duration := 1 }

/-- State of one `Sequence` instance. -/
structure Sequence where
  elements : List Element
  bpm : ℚ
  bars : String
  volume : ℚ
  isMuted : Bool
  isSolo : Bool
  startOffset : ℚ
  deriving DecidableEq

/-- The `Sequence` constructor defaults. -/
def Sequence.new : Sequence :=
  { elements := [], bpm := 120, bars := "1 bar", volume := 1,
    isMuted := false, isSolo := false, startOffset := 0 }

def Sequence.addElement (s : Sequence) (soundUrl : String) : Sequence :=
  { s with elements := s.elements ++ [Element.new soundUrl] }

/-- The bar-length lookup table inside `getDurationInSeconds`; every
listed multiplier is nonzero, so the JS `|| 1` fallback fires exactly on
unrecognized labels. -/
def barMultiplier (bars : String) : ℚ :=
  if bars = "1/4 bar" then 1/4
  else if bars = "1/2 bar" then 1/2
  else if bars = "1 bar" then 1
  else if bars = "2 bars" then 2
  else if bars = "3 bars" then 3
  else if bars = "4 bars" then 4
  else if bars = "8 bars" then 8
  else 1

/-- `Sequence.getDurationInSeconds` with `beatsPerBar = 4`. -/
def Sequence.getDurationInSeconds (s : Sequence) : ℚ :=
  (60 / s.bpm) * 4 * barMultiplier s.bars

/-- The `forEach` accumulation loop of `getElementTimes`: `cur` is the
running `currentTime`, `total` the precomputed `totalOffset`. -/
def elementTimesAux (total : ℚ) : ℚ → List Element → List ℚ
  | _, [] => []
  | cur, e :: es => cur / total :: elementTimesAux total (cur + e.offset) es

/-- `Sequence.getElementTimes`. -/
def Sequence.getElementTimes (s : Sequence) : List ℚ :=
  if s.elements = [] then []
  else
    let total := s.elements.foldl (fun acc e => acc + e.offset) 0
    elementTimesAux total 0 s.elements

/-- Replace the element at position `i` (used by the four setters). -/
def updateElem : List Element → Nat → (Element → Element) → List Element
  | [], _, _ => []
  | e :: es, 0, f => f e :: es
  | e :: es, n + 1, f => e :: updateElem es n f

/-- Shared range guard `index >= 0 && index < this.elements.length`; the
JS index may be any number, so it is modelled as an integer. -/
def inRange (s : Sequence) (index : ℤ) : Prop :=
  0 ≤ index ∧ index < s.elements.length

instance (s : Sequence) (index : ℤ) : Decidable (inRange s index) := by
  unfold inRange; infer_instance

def Sequence.setShift (s : Sequence) (index : ℤ) (shift : ℚ) : Sequence :=
  if inRange s index then
    { s with elements := updateElem s.elements index.toNat (fun e => { e with shift := shift }) }
  else s

def Sequence.setStretch (s : Sequence) (index : ℤ) (stretch : ℚ) : Sequence :=
  if inRange s index then
    { s with elements := updateElem s.elements index.toNat (fun e => { e with stretch := stretch }) }
  else s

def Sequence.setOffset (s : Sequence) (index : ℤ) (offset : ℚ) : Sequence :=
  if inRange s index then
    { s with elements := updateElem s.elements index.toNat (fun e => { e with offset := offset }) }
  else s

def Sequence.setDuration (s : Sequence) (index : ℤ) (duration : ℚ) : Sequence :=
  if inRange s index then
    { s with elements := updateElem s.elements index.toNat (fun e => { e with duration := duration }) }
  else s

/-- `removeElement` uses `splice(index, 1)` behind the same range guard. -/
def Sequence.removeElement (s : Sequence) (index : ℤ) : Sequence :=
  if inRange s index then
    { s with elements := s.elements.eraseIdx index.toNat }
  else s

/-! ### The declarative Elementary signal graph -/

/-- Config object of `el.mc.sample` (the model keeps the `[0]` channel
selection implicit by treating the call as one mono signal). -/
structure SampleConfig where
  channels : Nat
  path : String
  mode : String
  playbackRate : ℚ
  startOffset : ℚ
  endOffset : ℚ
  deriving DecidableEq

/-- Config object of `el.sampleseq2`. -/
structure Sampleseq2Config where
  path : String
  duration : ℚ
  seq : List (ℚ × ℚ)
  shift : ℚ
  stretch : ℚ
  deriving DecidableEq

/-- One entry of the `seq` array handed to `el.sparseq` by
`playTrajectory`; the JS object carries the `soundUrl` along. -/
structure SeqEntry where
  tickTime : ℤ
  value : Nat
  soundUrl : Option String
  deriving DecidableEq

/-- Config object of `el.sparseq`. -/
structure SparseqConfig where
  key : String
  seq : List SeqEntry
  loop : ℤ × ℤ
  deriving DecidableEq

/-- Signal AST produced by the graph-building functions.  The variadic
`el.add(...xs)` is modelled as a left fold of binary `add` over the
argument list (see `sumSigs`). -/
inductive Sig where
  | const : ℚ → Sig
  | constK : String → ℚ → Sig
  | add : Sig → Sig → Sig
  | mul : Sig → Sig → Sig
  | mod : Sig → Sig → Sig
  | div : Sig → Sig → Sig
  | eq : Sig → Sig → Sig
  | time : Sig
  | sr : Sig
  | train : ℚ → Sig
  | mcsample : SampleConfig → Sig → Sig → Sig
  | sampleseq2 : Sampleseq2Config → Sig → Sig
  | sparseq : SparseqConfig → Sig → Sig → Sig
  deriving DecidableEq

/-- `el.add(...voices)` for a nonempty argument list. -/
def sumSigs (v : Sig) (vs : List Sig) : Sig := vs.foldl Sig.add v

/-- The global `this.sampleParams` record. -/
structure SampleParams where
  startOffset : ℚ
  endOffset : ℚ
  playbackRate : ℚ
  deriving DecidableEq

/-- Defaults set in the component constructor. -/
def SampleParams.new : SampleParams :=
  { startOffset := 0, endOffset := 0, playbackRate := 1 }

/-- `createLoopingVoice(soundUrl, duration)`: a loop-mode sampler scaled
by `1 / maxVoices`.  (The locally computed `time` signal is unused by
the JS function body and is omitted.) -/
def createLoopingVoice (params : SampleParams) (soundUrl : String) (_duration : ℚ) : Sig :=
  Sig.mul
    (Sig.mcsample
      { channels := 1, path := soundUrl, mode := "loop",
        playbackRate := params.playbackRate,
        startOffset := params.startOffset, endOffset := params.endOffset }
      (Sig.const 1) (Sig.const 1))
    (Sig.const (1 / (maxVoices : ℚ)))

/-! ### createSequenceVoices (test-component.js lines 206-265) -/

/-- The per-element sampler of `createSequenceVoices` step: element `e`
at normalized position `t` inside a sequence of length `dur` seconds,
with `sampleDur` the loaded sample duration. -/
def elementVoice (s : Sequence) (dur sampleDur : ℚ) (e : Element) (t : ℚ) : Sig :=
  let startTime := s.startOffset * dur + t * (1 - s.startOffset) * dur
  let endTime := max (startTime + sampleDur) dur
  Sig.sampleseq2
    { path := e.soundUrl, duration := sampleDur * e.duration,
      seq := [(startTime, 1), (endTime, 0)],
      shift := e.shift, stretch := e.stretch }
    (Sig.mod (Sig.div Sig.time Sig.sr) (Sig.const dur))

/-- The `elements.map(...).filter(voice => voice !== null)` pipeline:
elements paired with their normalized times; an element whose sample has
not been uploaded yields `null` and is filtered out. -/
def buildSequenceVoices (uploaded : List String) (durations : String → ℚ)
    (s : Sequence) (dur : ℚ) : List Sig :=
  (s.elements.zip s.getElementTimes).filterMap fun (e, t) =>
    if e.soundUrl ∈ uploaded then some (elementVoice s dur (durations e.soundUrl) e t)
    else none

/-- `createSequenceVoices(sequence)`.  `anySolo` stands for
`this.soloSequences.size > 0`; the solo button handler keeps that set in
sync with the per-sequence `isSolo` flags.  A `null` return is `none`. -/
def createSequenceVoices (uploaded : List String) (durations : String → ℚ)
    (anySolo : Bool) (s : Sequence) : Option Sig :=
  if s.elements = [] then none
  else if s.isMuted || (anySolo && !s.isSolo) then some (Sig.const 0)
  else
    match buildSequenceVoices uploaded durations s s.getDurationInSeconds with
    | [] => none
    | v :: vs => some (Sig.mul (sumSigs v vs) (Sig.const (s.volume / (maxVoices : ℚ))))

/-! ### playTrajectory (test-component.js lines 492-540) -/

/-- One recorded trajectory event `{time, soundUrl}`; the end marker
appended by `stopTrajectoryRecording` has `soundUrl = null`. -/
structure TrajEvent where
  time : ℚ
  soundUrl : Option String
  deriving DecidableEq

/-- The `trajectory.events.map((evt, i) => ...)` step: each event is
quantized to `Math.round(evt.time * 100) + 1` ticks and numbered
`i + 1` so every sound tick value is nonzero. -/
def trajSeqAux : Nat → List TrajEvent → List SeqEntry
  | _, [] => []
  | i, e :: es =>
    { tickTime := jsRound (e.time * 100) + 1, value := i + 1, soundUrl := e.soundUrl }
      :: trajSeqAux (i + 1) es

def trajSeq (events : List TrajEvent) : List SeqEntry := trajSeqAux 0 events

/-- `[firstTick, latestEndpoint]` = `[seq[0].tickTime - 1,
seq[seq.length - 1].tickTime]`; `none` when `playTrajectory` returns
early on an empty event list. -/
def trajLoopWindow (events : List TrajEvent) : Option (ℤ × ℤ) :=
  match trajSeq events with
  | [] => none
  | e :: es => some (e.tickTime - 1, ((e :: es).getLastD e).tickTime)

/-- The master step sequence driven by the 100 Hz `el.train` clock. -/
def trajMasterSeq (tid : String) (events : List TrajEvent) : Option Sig :=
  match trajLoopWindow events with
  | none => none
  | some window =>
    some (Sig.sparseq { key := tid, seq := trajSeq events, loop := window }
      (Sig.train 100) (Sig.const 0))

/-- Trigger constants of the per-event players: the events with a
non-null sound are filtered out and re-numbered `index + 1`, matching
the nonzero master-sequence values. -/
def trajPlayerTriggerVals (events : List TrajEvent) : List Nat :=
  (List.range ((trajSeq events).filter (fun en => en.soundUrl.isSome)).length).map
    fun i => i + 1

/-- The per-event one-shot players gated on `masterSeq == index + 1`. -/
def trajPlayers (params : SampleParams) (tid : String) (events : List TrajEvent) : List Sig :=
  match trajMasterSeq tid events with
  | none => []
  | some master =>
    (((trajSeq events).filter (fun en => en.soundUrl.isSome)).zip
        (trajPlayerTriggerVals events)).map fun (en, v) =>
      Sig.mcsample
        { channels := 1, path := en.soundUrl.getD "", mode := "trigger",
          playbackRate := params.playbackRate,
          startOffset := params.startOffset, endOffset := params.endOffset }
        (Sig.eq master (Sig.constK tid v)) (Sig.const 1)

/-! ### One-off voice lifecycle (playOneOffSound, lines 365-406)

`activeVoices` and `voiceTimeouts` are JS Maps iterated in insertion
order.  Voice ids are modelled by a fresh counter (`next`), standing in
for the unique key built from the sound URL and the timestamp; since a
played voice is always inserted last, an id doubles as the insertion
rank of its voice. -/

structure OneOffState where
  voices : List Nat
  timeouts : List Nat
  next : Nat
  deriving DecidableEq

def OneOffState.init : OneOffState := { voices := [], timeouts := [], next := 0 }

/-- One `playOneOffSound` call (after the sample is available): evict
the first map key when at capacity, insert the fresh voice, and
schedule its removal timeout.  The second component reports the evicted
voice id; note the eviction does not touch `voiceTimeouts`. -/
def playOneOffStep (s : OneOffState) : OneOffState × Option Nat :=
  let (vs, ev) :=
    if maxVoices ≤ s.voices.length then (s.voices.tail, s.voices.head?)
    else (s.voices, none)
  ({ voices := vs ++ [s.next], timeouts := s.timeouts ++ [s.next], next := s.next + 1 }, ev)

/-- The `setTimeout` expiry callback for voice `j`: delete the voice and
its timeout bookkeeping entry. -/
def expireStep (s : OneOffState) (j : Nat) : OneOffState :=
  { voices := s.voices.erase j, timeouts := s.timeouts.erase j, next := s.next }

/-- External events driving the one-off voice state. -/
inductive OneOffEvent where
  | play : OneOffEvent
  | expire : Nat → OneOffEvent
  deriving DecidableEq

def oneOffStep (s : OneOffState) : OneOffEvent → OneOffState
  | .play => (playOneOffStep s).1
  | .expire j => expireStep s j

/-- Run a trace of plays and timer expiries from the initial state. -/
def runOneOff (tr : List OneOffEvent) : OneOffState :=
  tr.foldl oneOffStep OneOffState.init

/-! ### toggleLoopingSound (test-component.js lines 332-363)

`loopingVoices` is a JS Map keyed by sound URL (unique keys, insertion
order); `Map.delete(soundUrl)` removes the entry with that key, which on
a map is the same as filtering the key out.  The fetch-and-decode of a
not-yet-uploaded sample is represented by the oracle `fetchDur` giving
the decoded buffer duration. -/

structure LoopState where
  loopingVoices : List (String × Sig)
  uploadedSamples : List String
  sampleDurations : List (String × ℚ)
  sampleParams : SampleParams
  deriving DecidableEq

/-- `this.sampleDurations.get(soundUrl)` (insertion-ordered map read). -/
def lookupDur (m : List (String × ℚ)) (k : String) : ℚ :=
  match m.find? (fun p => p.1 == k) with
  | some p => p.2
  | none => 0

def toggleLoopingSound (fetchDur : String → ℚ) (st : LoopState) (soundUrl : String) :
    LoopState :=
  if st.loopingVoices.any (fun p => p.1 == soundUrl) then
    { st with loopingVoices := st.loopingVoices.filter (fun p => !(p.1 == soundUrl)) }
  else
    let st1 :=
      if soundUrl ∈ st.uploadedSamples then st
      else
        { st with
          uploadedSamples := st.uploadedSamples ++ [soundUrl],
          sampleDurations := st.sampleDurations ++ [(soundUrl, fetchDur soundUrl)] }
    let dur := lookupDur st1.sampleDurations soundUrl
    { st1 with
      loopingVoices :=
        st1.loopingVoices ++ [(soundUrl, createLoopingVoice st1.sampleParams soundUrl dur)] }

/-! ### updateAudioGraph and mode switching

`updateAudioGraph` (test-component.js lines 286-330) mixes the
mode-selected voices with all sequence and trajectory signals.  Mode
switching exists twice in the repository: the final component wires the
mode radio buttons to a handler that only assigns `this.mode` and
rebuilds (test-component.js lines 1136-1142), while the earlier
component versions route the same radio change through `setMode`
(src/unnamed/part_000 lines 568-577 and 2248-2257), which clears
`loopingVoices`, rebuilds, and then assigns the mode. -/

structure Trajectory where
  events : List TrajEvent
  isPlaying : Bool
  deriving DecidableEq

structure AppState where
  mode : String
  loopingVoices : List (String × Sig)
  activeVoices : List (String × Sig)
  sequences : List (Nat × Sequence)
  sequenceSignals : List (Nat × Sig)
  trajectories : List (Nat × Trajectory)
  activeTrajectorySignals : List (Nat × Sig)
  deriving DecidableEq

/-- Mix an optional signal so far with a nonempty list of new signals
(`signal ? el.add(signal, mix) : mix`). -/
def mixInto (base : Option Sig) (v : Sig) (vs : List Sig) : Option Sig :=
  match base with
  | some b => some (Sig.add b (sumSigs v vs))
  | none => some (sumSigs v vs)

/-- `updateAudioGraph` without the final render call: the signal handed
to `core.render(signal, signal)`. -/
def updateAudioGraph (st : AppState) : Sig :=
  let base : Option Sig :=
    if st.mode == "explore looping" then
      match st.loopingVoices.map Prod.snd with
      | [] => some (Sig.const 0)
      | v :: vs => some (sumSigs v vs)
    else if st.mode == "explore one-off" then
      match st.activeVoices.map Prod.snd with
      | [] => some (Sig.const 0)
      | v :: vs => some (sumSigs v vs)
    else none
  let withSeq :=
    match st.sequenceSignals.map Prod.snd with
    | [] => base
    | v :: vs => mixInto base v vs
  let withTraj :=
    match st.activeTrajectorySignals.map Prod.snd with
    | [] => withSeq
    | v :: vs => mixInto withSeq v vs
  match withTraj with
  | some s => s
  | none => Sig.const 0

/-- `setMode(mode)` of the earlier component versions: clear all looping
voices, rebuild the graph (still under the old mode), then assign the
new mode.  Returns the new state and the rendered signal. -/
def setMode (st : AppState) (mode : String) : AppState × Sig :=
  let cleared := { st with loopingVoices := [] }
  let rendered := updateAudioGraph cleared
  ({ cleared with mode := mode }, rendered)

/-- The mode radio-change handler of the final component: assign
`this.mode` and rebuild. -/
def modeRadioChange (st : AppState) (mode : String) : AppState × Sig :=
  let st1 := { st with mode := mode }
  (st1, updateAudioGraph st1)

/-! ### Asset loading under concurrency (playOneOffSound lines 370-380)

`playOneOffSound` guards the fetch with
`if (!this.uploadedSamples.has(soundUrl))` and only adds the URL to
`uploadedSamples` after the awaited fetch and decode complete.  A
request is therefore two event-loop steps: the synchronous check, and
the completion after the awaits. -/

structure LoadWorld where
  uploaded : List String
  fetchCount : Nat
  deriving DecidableEq

/-- The synchronous guard: will this request fetch? -/
def loadCheck (w : LoadWorld) (r : String) : Bool := !(r ∈ w.uploaded)

/-- Completion of one request that decided `willFetch` at check time. -/
def loadComplete (w : LoadWorld) (r : String) (willFetch : Bool) : LoadWorld :=
  if willFetch then { uploaded := w.uploaded ++ [r], fetchCount := w.fetchCount + 1 }
  else w

/-- Two concurrent requests for `r`: both checks run before either
completion (both loads are in flight at once). -/
def concurrentLoads (w : LoadWorld) (r : String) : LoadWorld :=
  let a := loadCheck w r
  let b := loadCheck w r
  loadComplete (loadComplete w r a) r b

/-- Two sequential requests for `r`: the second checks only after the
first completed. -/
def sequentialLoads (w : LoadWorld) (r : String) : LoadWorld :=
  let a := loadCheck w r
  let w1 := loadComplete w r a
  let b := loadCheck w1 r
  loadComplete w1 r b

/-! ### Concrete inputs used by counterexamples and witnesses -/

/-- Running sum of element offsets (`totalOffset` accumulation). -/
def sumOffsets (l : List Element) : ℚ := l.foldl (fun acc e => acc + e.offset) 0

/-- Sequence membership list of soloed flags
(`this.soloSequences.size > 0` as maintained by the solo handler). -/
def anySoloOf (seqs : List Sequence) : Bool := seqs.any (fun s => s.isSolo)

/-- Trajectory of the C2 scenario: events at 0.00 s and 0.30 s and the
end marker appended by `stopTrajectoryRecording`, here at 0.30 s. -/
def c2Events : List TrajEvent :=
  [{ time := 0, soundUrl := some "assetX" },
   { time := 3/10, soundUrl := some "assetY" },
   { time := 3/10, soundUrl := none }]

/-- A state with one active looping voice, about to switch mode. -/
def c7CexState : AppState :=
  { mode := "explore looping",
    loopingVoices := [("u", Sig.const 1)],
    activeVoices := [], sequences := [], sequenceSignals := [],
    trajectories := [], activeTrajectorySignals := [] }

/-- Five plays in a row: one more than `maxVoices`. -/
def fivePlays : List OneOffEvent := List.replicate 5 OneOffEvent.play

/-- A two-element sequence with default (equal) offsets. -/
def twoElemSeq : Sequence := (Sequence.new.addElement "a").addElement "b"

/-- Sequence A of the C3 scenario: soloed, with one loaded element. -/
def cSeqA : Sequence :=
  { Sequence.new with isSolo := true, elements := [Element.new "x"] }

/-- Sequence B of the C3 scenario: neither soloed nor muted. -/
def cSeqB : Sequence :=
  { Sequence.new with elements := [Element.new "y"] }

/-- Invariant of the one-off voice machine: voice ids are strictly
increasing (insertion order), all below the fresh counter, and at most
`maxVoices` voices are active. -/
def OneOffInv (s : OneOffState) : Prop :=
  s.voices.Pairwise (· < ·) ∧ (∀ v ∈ s.voices, v < s.next) ∧
    s.voices.length ≤ maxVoices

/-! ## Theorems -/

theorem elementTimesAux_length (total : ℚ) :
    ∀ (cur : ℚ) (l : List Element), (elementTimesAux total cur l).length = l.length := by
  intro cur l
  induction l generalizing cur with
  | nil => rfl
  | cons e es ih => simp [elementTimesAux, ih]

theorem sumOffsets_foldl (l : List Element) (c : ℚ) :
    l.foldl (fun acc e => acc + e.offset) c = c + sumOffsets l := by
  induction l generalizing c with
  | nil => simp [sumOffsets]
  | cons e es ih =>
    simp only [List.foldl_cons, sumOffsets] at *
    rw [ih (c + e.offset), ih (0 + e.offset)]
    ring

theorem sumOffsets_cons (e : Element) (l : List Element) :
    sumOffsets (e :: l) = e.offset + sumOffsets l := by
  show List.foldl _ 0 (e :: l) = _
  rw [List.foldl_cons, sumOffsets_foldl l (0 + e.offset)]
  show (0 + e.offset) + sumOffsets l = _
  ring

theorem elementTimesAux_getElem (total : ℚ) :
    ∀ (cur : ℚ) (l : List Element) (i : Nat), i < l.length →
      (elementTimesAux total cur l)[i]? = some ((cur + sumOffsets (l.take i)) / total) := by
  intro cur l
  induction l generalizing cur with
  | nil => intro i h; simp at h
  | cons e es ih =>
    intro i h
    cases i with
    | zero => simp [elementTimesAux, sumOffsets]
    | succ n =>
      have hn : n < es.length := by simpa using h
      simp only [elementTimesAux, List.getElem?_cons_succ, List.take_succ_cons]
      rw [ih (cur + e.offset) n hn, sumOffsets_cons]
      ring_nf

/-- Claim C5: for every non-empty element list the normalized position
of element i equals the sum of the offsets before i divided by the sum
of all offsets; offsets 1,1 give positions 0 and 1/2, and offsets 1,3
give positions 0 and 1/4. -/
theorem elementTimes_normalized_positions :
    (∀ (s : Sequence) (i : Nat), i < s.elements.length →
        s.getElementTimes[i]? =
          some (sumOffsets (s.elements.take i) / sumOffsets s.elements)) ∧
    twoElemSeq.getElementTimes = [0, 1/2] ∧
    (twoElemSeq.setOffset 1 3).getElementTimes = [0, 1/4] := by
  refine ⟨?_, ?_, ?_⟩
  case refine_2 =>
    norm_num [twoElemSeq, Sequence.new, Sequence.addElement, Element.new,
      Sequence.getElementTimes, elementTimesAux]
    intro h
    simp at h
  case refine_3 =>
    norm_num [twoElemSeq, Sequence.new, Sequence.addElement, Element.new,
      Sequence.getElementTimes, Sequence.setOffset, inRange, updateElem,
      elementTimesAux]
    intro h
    simp at h
  intro s i h
  have hne : s.elements ≠ [] := by
    intro hnil; rw [hnil] at h; simp at h
  unfold Sequence.getElementTimes
  rw [if_neg hne]
  have := elementTimesAux_getElem (s.elements.foldl (fun acc e => acc + e.offset) 0) 0
    s.elements i h
  rw [this, sumOffsets_foldl s.elements 0]
  norm_num

/-- Claim C5 witness: position 1 of the default two-element sequence. -/
theorem elementTimes_normalized_positions_witness :
    1 < twoElemSeq.elements.length ∧
      twoElemSeq.getElementTimes[1]? =
        some (sumOffsets (twoElemSeq.elements.take 1) / sumOffsets twoElemSeq.elements) :=
  ⟨by decide, elementTimes_normalized_positions.1 twoElemSeq 1 (by decide)⟩

/-- Claim C4: durationSeconds equals (60/bpm) * 4 * barMultiplier with
the enumerated bar labels and default multiplier 1; bpm 120 with one
bar gives 2 s, bpm 60 with two bars gives 8 s. -/
theorem durationSeconds_formula :
    (∀ s : Sequence,
        s.getDurationInSeconds = (60 / s.bpm) * 4 * barMultiplier s.bars) ∧
    (∀ bars : String,
        bars ∉ ["1/4 bar", "1/2 bar", "1 bar", "2 bars", "3 bars", "4 bars", "8 bars"] →
          barMultiplier bars = 1) ∧
    Sequence.getDurationInSeconds { Sequence.new with bpm := 120, bars := "1 bar" } = 2 ∧
    Sequence.getDurationInSeconds { Sequence.new with bpm := 60, bars := "2 bars" } = 8 := by
  refine ⟨fun s => rfl, ?_,
    by norm_num [Sequence.getDurationInSeconds, barMultiplier]
       rw [if_neg (by decide), if_neg (by decide)],
    by norm_num [Sequence.getDurationInSeconds, barMultiplier]
       rw [if_neg (by decide), if_neg (by decide), if_neg (by decide)]⟩
  intro bars h
  simp only [List.mem_cons, List.not_mem_nil, or_false, not_or] at h
  obtain ⟨h1, h2, h3, h4, h5, h6, h7⟩ := h
  simp [barMultiplier, h1, h2, h3, h4, h5, h6, h7]

/-- Claim C4 witness: an unrecognized bar label falls back to 1. -/
theorem durationSeconds_formula_witness :
    "7 bars" ∉ ["1/4 bar", "1/2 bar", "1 bar", "2 bars", "3 bars", "4 bars", "8 bars"] ∧
      barMultiplier "7 bars" = 1 :=
  ⟨by decide, durationSeconds_formula.2.1 "7 bars" (by decide)⟩

/-- Claim C10: every per-element mutation with an index outside the
element range leaves the element list unchanged. -/
theorem outOfRange_mutations_noop :
    ∀ (s : Sequence) (i : ℤ) (v : ℚ), i < 0 ∨ (s.elements.length : ℤ) ≤ i →
      (s.setShift i v).elements = s.elements ∧
      (s.setStretch i v).elements = s.elements ∧
      (s.setOffset i v).elements = s.elements ∧
      (s.setDuration i v).elements = s.elements ∧
      (s.removeElement i).elements = s.elements := by
  intro s i v h
  have hnot : ¬ inRange s i := by unfold inRange; omega
  refine ⟨?_, ?_, ?_, ?_, ?_⟩ <;>
    simp [Sequence.setShift, Sequence.setStretch, Sequence.setOffset,
      Sequence.setDuration, Sequence.removeElement, hnot]

/-- Claim C10 witness: index -1 on the two-element sequence. -/
theorem outOfRange_mutations_noop_witness :
    ((-1 : ℤ) < 0 ∨ ((twoElemSeq.elements.length : ℤ) ≤ -1)) ∧
      (twoElemSeq.setShift (-1) 5).elements = twoElemSeq.elements ∧
      (twoElemSeq.setStretch (-1) 5).elements = twoElemSeq.elements ∧
      (twoElemSeq.setOffset (-1) 5).elements = twoElemSeq.elements ∧
      (twoElemSeq.setDuration (-1) 5).elements = twoElemSeq.elements ∧
      (twoElemSeq.removeElement (-1)).elements = twoElemSeq.elements :=
  ⟨Or.inl (by decide), outOfRange_mutations_noop twoElemSeq (-1) 5 (Or.inl (by decide))⟩

theorem jsRound_zero_mul : jsRound ((0 : ℚ) * 100) = 0 := by
  unfold jsRound
  rw [Int.floor_eq_iff]
  constructor <;> norm_num

theorem jsRound_zero : jsRound (0 : ℚ) = 0 := by
  unfold jsRound
  rw [Int.floor_eq_iff]
  constructor <;> norm_num

theorem jsRound_threeTenths_mul : jsRound ((3/10 : ℚ) * 100) = 30 := by
  unfold jsRound
  rw [Int.floor_eq_iff]
  constructor <;> norm_num

theorem jsRound_thirty : jsRound (30 : ℚ) = 30 := by
  unfold jsRound
  rw [Int.floor_eq_iff]
  constructor <;> norm_num

/-- Claim C2 counterexample: for events at 0.00 s and 0.30 s with the
end marker at 0.30 s, the compiled loop window is [0, 31], not the
claimed [-1, 30]: the code adds 1 to every quantized tick before
subtracting 1 from the loop start. -/
theorem trajectory_loop_window_cex :
    trajLoopWindow c2Events = some (0, 31) ∧
      trajLoopWindow c2Events ≠ some (-1, 30) := by
  have h : trajLoopWindow c2Events = some (0, 31) := by
    simp [trajLoopWindow, trajSeq, trajSeqAux, c2Events, List.getLastD,
      jsRound_zero_mul, jsRound_threeTenths_mul, jsRound_zero, jsRound_thirty]
  exact ⟨h, by rw [h]; decide⟩

/-- Claim C2 amended: for a trajectory with events at 0.00 s (assetX)
and 0.30 s (assetY) followed by the stop marker at any time tEnd, the
compiled master sequence loop window spans tick 0 (= first quantized
tick 1 minus the edge correction) through tick jsRound(tEnd*100)+1
(tick 31 when the stop lands at 0.30 s), and the compilation produces
exactly two trigger windows keyed to the nonzero index values 1 and 2,
one per non-null event. -/
theorem trajectory_compile_amended :
    ∀ (x y : String) (tEnd : ℚ),
      trajLoopWindow
          [{ time := 0, soundUrl := some x }, { time := 3/10, soundUrl := some y },
           { time := tEnd, soundUrl := none }] =
        some (0, jsRound (tEnd * 100) + 1) ∧
      trajPlayerTriggerVals
          [{ time := 0, soundUrl := some x }, { time := 3/10, soundUrl := some y },
           { time := tEnd, soundUrl := none }] = [1, 2] := by
  intro x y tEnd
  constructor
  · simp [trajLoopWindow, trajSeq, trajSeqAux, List.getLastD, jsRound_zero_mul, jsRound_zero]
  · simp [trajPlayerTriggerVals, trajSeq, trajSeqAux, List.range_succ]

/-- Claim C9 counterexample: two concurrent loads of the same
not-yet-uploaded reference both pass the `uploadedSamples` guard before
either completes, so two fetch/decode operations are performed, not
one. -/
theorem concurrent_load_duplicates :
    (concurrentLoads { uploaded := [], fetchCount := 0 } "u").fetchCount = 2 ∧
      (concurrentLoads { uploaded := [], fetchCount := 0 } "u").fetchCount ≠ 1 := by
  constructor <;> simp [concurrentLoads, loadCheck, loadComplete]

/-- Claim C9 amended: the load guard deduplicates by completion state
only: two concurrent requests for a not-yet-uploaded reference each
perform a fetch/decode (two in total), while sequential requests
perform exactly one because the second observes the completed upload. -/
theorem load_dedup_amended :
    ∀ (w : LoadWorld) (r : String), r ∉ w.uploaded →
      (concurrentLoads w r).fetchCount = w.fetchCount + 2 ∧
      (sequentialLoads w r).fetchCount = w.fetchCount + 1 := by
  intro w r h
  have hc : loadCheck w r = true := by simp [loadCheck, h]
  refine ⟨?_, ?_⟩
  · simp [concurrentLoads, hc, loadComplete]
  · simp [sequentialLoads, hc, loadComplete, loadCheck, h]

/-- Claim C9 amended witness: a fresh reference in an empty world. -/
theorem load_dedup_amended_witness :
    "u" ∉ ([] : List String) ∧
      ((concurrentLoads { uploaded := [], fetchCount := 0 } "u").fetchCount = 0 + 2 ∧
       (sequentialLoads { uploaded := [], fetchCount := 0 } "u").fetchCount = 0 + 1) :=
  ⟨by decide, load_dedup_amended { uploaded := [], fetchCount := 0 } "u" (by decide)⟩

/-- Claim C7 counterexample: in the final component the mode
radio-change handler does not clear the looping voices: switching from
looping to one-off exploration leaves the looping voice for "u" in
place. -/
theorem mode_switch_no_clear_cex :
    (modeRadioChange c7CexState "explore one-off").1.loopingVoices =
        [("u", Sig.const 1)] ∧
      (modeRadioChange c7CexState "explore one-off").1.loopingVoices ≠ [] := by
  exact ⟨rfl, by simp [modeRadioChange, c7CexState]⟩

/-- Claim C7 amended: mode switching through `setMode` (the earlier
component versions) clears all looping voices unconditionally, leaves
one-off voices, sequences and trajectories unchanged, assigns the mode,
and rebuilds the graph (the rebuild runs on the cleared state, before
the mode field is assigned); in the final component the radio handler
only assigns the mode, leaving all voice collections unchanged, and
rebuilds the graph. -/
theorem mode_switch_amended :
    ∀ (st : AppState) (mode : String),
      (setMode st mode).1.loopingVoices = [] ∧
      (setMode st mode).1.activeVoices = st.activeVoices ∧
      (setMode st mode).1.sequences = st.sequences ∧
      (setMode st mode).1.trajectories = st.trajectories ∧
      (setMode st mode).1.activeTrajectorySignals = st.activeTrajectorySignals ∧
      (setMode st mode).1.mode = mode ∧
      (setMode st mode).2 = updateAudioGraph { st with loopingVoices := [] } ∧
      (modeRadioChange st mode).1 = { st with mode := mode } ∧
      (modeRadioChange st mode).2 = updateAudioGraph { st with mode := mode } :=
  fun _ _ => ⟨rfl, rfl, rfl, rfl, rfl, rfl, rfl, rfl, rfl⟩

theorem keys_filter_append (l : List (String × Sig)) (url k : String) (v : Sig)
    (h : url ∈ l.map Prod.fst) :
    (k ∈ (((l.filter fun p => !(p.1 == url)) ++ [(url, v)]).map Prod.fst) ↔
      k ∈ l.map Prod.fst) := by
  simp only [List.map_append, List.mem_append, List.mem_map, List.mem_filter,
    List.map_cons, List.map_nil, List.mem_singleton, Bool.not_eq_true', beq_eq_false_iff_ne,
    ne_eq]
  by_cases hk : k = url
  · subst hk
    simp only [List.mem_map] at h
    tauto
  · constructor
    · rintro (⟨p, ⟨hp, _⟩, hpk⟩ | hku)
      · exact ⟨p, hp, hpk⟩
      · exact (hk hku).elim
    · rintro ⟨p, hp, hpk⟩
      exact Or.inl ⟨p, ⟨hp, by rw [hpk]; exact hk⟩, hpk⟩

/-- Claim C6: calling toggleLoopingSound twice in succession with the
same sound reference (and no other intervening state change) restores
the set of looping sound references to its prior state. -/
theorem toggleLoop_restores_membership :
    ∀ (fetchDur : String → ℚ) (st : LoopState) (url k : String),
      (k ∈ ((toggleLoopingSound fetchDur (toggleLoopingSound fetchDur st url) url).loopingVoices.map
            Prod.fst) ↔
        k ∈ st.loopingVoices.map Prod.fst) := by
  intro fd st url k
  by_cases h : (st.loopingVoices.any fun p => p.1 == url) = true
  · -- toggle off, then toggle back on
    have hurl : url ∈ st.loopingVoices.map Prod.fst := by
      simp only [List.any_eq_true] at h
      obtain ⟨p, hp, hq⟩ := h
      exact List.mem_map.mpr ⟨p, hp, by simpa using hq⟩
    have h2 : ((st.loopingVoices.filter fun p => !(p.1 == url)).any fun p => p.1 == url)
        = false := by
      rw [List.any_eq_false]
      intro p hp
      have h3 := (List.mem_filter.mp hp).2
      simpa using h3
    simp only [toggleLoopingSound, h, if_true, h2]
    by_cases hu : url ∈ st.uploadedSamples <;>
      simp only [hu, if_true, if_false, Bool.false_eq_true, reduceIte] <;>
      exact keys_filter_append st.loopingVoices url k _ hurl
  · -- toggle on, then toggle back off
    have h0 : (st.loopingVoices.any fun p => p.1 == url) = false :=
      Bool.not_eq_true _ ▸ Bool.eq_false_iff.mpr h
    have hall : ∀ p ∈ st.loopingVoices, (p.1 == url) = false := by
      intro p hp
      simpa using List.any_eq_false.mp h0 p hp
    by_cases hu : url ∈ st.uploadedSamples <;>
    · simp only [toggleLoopingSound, h0, Bool.false_eq_true, if_false, hu, reduceIte,
        List.any_append, List.any_cons, List.any_nil, beq_self_eq_true, Bool.or_true,
        if_true, List.filter_append]
      rw [List.filter_eq_self.mpr (by intro p hp; simpa using hall p hp)]
      simp

theorem buildSequenceVoices_ne_nil (upl : List String) (dur : String → ℚ)
    (s : Sequence) (d : ℚ) (e : Element) (es : List Element)
    (he : s.elements = e :: es) (hup : e.soundUrl ∈ upl) :
    ∃ v vs, buildSequenceVoices upl dur s d = v :: vs := by
  have hne : s.elements ≠ [] := by rw [he]; simp
  unfold buildSequenceVoices Sequence.getElementTimes
  rw [if_neg hne, he]
  simp only [elementTimesAux, List.zip_cons_cons, List.filterMap_cons, hup, if_true]
  exact ⟨_, _, rfl⟩

/-- Claim C3: with any sequence soloed, every non-soloed sequence
compiles to the zero signal regardless of its mute flag; a muted
sequence that is not itself soloed compiles to the zero signal whatever
the solo state; and a soloed, unmuted sequence with loaded elements
compiles to a non-zero, non-null signal (the A-soloed, B-plain scenario
follows from the first and third conjuncts). -/
theorem sequence_solo_mute_silencing :
    ∀ (upl : List String) (dur : String → ℚ) (seqs : List Sequence),
      ((∃ a ∈ seqs, a.isSolo = true) →
        ∀ b ∈ seqs, b.isSolo = false → b.elements ≠ [] →
          createSequenceVoices upl dur (anySoloOf seqs) b = some (Sig.const 0)) ∧
      (∀ b ∈ seqs, b.isMuted = true → b.isSolo = false → b.elements ≠ [] →
          createSequenceVoices upl dur (anySoloOf seqs) b = some (Sig.const 0)) ∧
      (∀ a ∈ seqs, a.isSolo = true → a.isMuted = false → a.elements ≠ [] →
          (∀ e ∈ a.elements, e.soundUrl ∈ upl) →
          createSequenceVoices upl dur (anySoloOf seqs) a ≠ some (Sig.const 0) ∧
          createSequenceVoices upl dur (anySoloOf seqs) a ≠ none) := by
  intro upl dur seqs
  refine ⟨?_, ?_, ?_⟩
  · rintro ⟨a, ha, hsolo⟩ b hb hbs hbne
    have hany : anySoloOf seqs = true :=
      List.any_eq_true.mpr ⟨a, ha, by simp [hsolo]⟩
    unfold createSequenceVoices
    rw [if_neg hbne, if_pos (show (b.isMuted || (anySoloOf seqs && !b.isSolo)) = true by
      rw [hany, hbs]; simp)]
  · intro b hb hm hbs hbne
    unfold createSequenceVoices
    rw [if_neg hbne, if_pos (show (b.isMuted || (anySoloOf seqs && !b.isSolo)) = true by
      rw [hm]; simp)]
  · intro a ha hsolo hm hane hupl
    obtain ⟨e, es, he⟩ := List.exists_cons_of_ne_nil hane
    obtain ⟨v, vs, hb⟩ :=
      buildSequenceVoices_ne_nil upl dur a a.getDurationInSeconds e es he
        (hupl e (by rw [he]; exact List.mem_cons_self e es))
    have hcond : (a.isMuted || (anySoloOf seqs && !a.isSolo)) = false := by
      rw [hm, hsolo]; simp
    unfold createSequenceVoices
    rw [if_neg hane, if_neg (by rw [hcond]; simp), hb]
    exact ⟨by simp, by simp⟩

/-- Claim C3 witness: sequence A soloed with one loaded element,
sequence B neither soloed nor muted; B compiles silent, A audible. -/
theorem sequence_solo_mute_silencing_witness :
    (∃ a ∈ [cSeqA, cSeqB], a.isSolo = true) ∧
      cSeqB.isSolo = false ∧ cSeqB.elements ≠ [] ∧
      cSeqA.isSolo = true ∧ cSeqA.isMuted = false ∧ cSeqA.elements ≠ [] ∧
      (∀ e ∈ cSeqA.elements, e.soundUrl ∈ ["x"]) ∧
      (createSequenceVoices ["x"] (fun _ => 1) (anySoloOf [cSeqA, cSeqB]) cSeqB =
        some (Sig.const 0)) ∧
      (createSequenceVoices ["x"] (fun _ => 1) (anySoloOf [cSeqA, cSeqB]) cSeqA ≠
        some (Sig.const 0)) ∧
      (createSequenceVoices ["x"] (fun _ => 1) (anySoloOf [cSeqA, cSeqB]) cSeqA ≠
        none) := by
  have hA : cSeqA ∈ [cSeqA, cSeqB] := List.mem_cons_self _ _
  have hB : cSeqB ∈ [cSeqA, cSeqB] := by simp
  have hsolo : ∃ a ∈ [cSeqA, cSeqB], a.isSolo = true := ⟨cSeqA, hA, rfl⟩
  have hBne : cSeqB.elements ≠ [] := by simp [cSeqB, Sequence.new]
  have hAne : cSeqA.elements ≠ [] := by simp [cSeqA, Sequence.new]
  have hup : ∀ e ∈ cSeqA.elements, e.soundUrl ∈ ["x"] := by
    intro e hee
    simp only [cSeqA, Element.new] at hee
    simp only [List.mem_singleton] at hee
    rw [hee]
    simp [Element.new]
  have main := sequence_solo_mute_silencing ["x"] (fun _ => 1) [cSeqA, cSeqB]
  have audible := main.2.2 cSeqA hA rfl rfl hAne hup
  exact ⟨hsolo, rfl, hBne, rfl, rfl, hAne, hup,
    main.1 hsolo cSeqB hB rfl hBne, audible.1, audible.2⟩

theorem playOneOffStep_voices (s : OneOffState) :
    (playOneOffStep s).1.voices =
      (if maxVoices ≤ s.voices.length then s.voices.tail else s.voices) ++ [s.next] := by
  by_cases hc : maxVoices ≤ s.voices.length <;> simp [playOneOffStep, hc]

theorem playOneOffStep_timeouts (s : OneOffState) :
    (playOneOffStep s).1.timeouts = s.timeouts ++ [s.next] := by
  by_cases hc : maxVoices ≤ s.voices.length <;> simp [playOneOffStep, hc]

theorem playOneOffStep_evicted (s : OneOffState) :
    (playOneOffStep s).2 =
      if maxVoices ≤ s.voices.length then s.voices.head? else none := by
  by_cases hc : maxVoices ≤ s.voices.length <;> simp [playOneOffStep, hc]

theorem oneOffInv_init : OneOffInv OneOffState.init := by
  refine ⟨List.Pairwise.nil, ?_, ?_⟩ <;> simp [OneOffState.init, maxVoices]

theorem oneOffInv_play (s : OneOffState) (h : OneOffInv s) :
    OneOffInv (playOneOffStep s).1 := by
  obtain ⟨hp, hlt, hlen⟩ := h
  have hnext : (playOneOffStep s).1.next = s.next + 1 := by
    by_cases hc : maxVoices ≤ s.voices.length <;> simp [playOneOffStep, hc]
  refine ⟨?_, ?_, ?_⟩
  · rw [playOneOffStep_voices]
    apply List.pairwise_append.mpr
    refine ⟨?_, List.pairwise_singleton _ _, ?_⟩
    · split
      · exact hp.sublist (List.tail_sublist _)
      · exact hp
    · intro a haa b hbb
      rw [List.mem_singleton] at hbb
      subst hbb
      split at haa
      · exact hlt a (List.mem_of_mem_tail haa)
      · exact hlt a haa
  · intro v hv
    rw [playOneOffStep_voices] at hv
    rw [hnext]
    rcases List.mem_append.mp hv with h1 | h1
    · split at h1
      · exact Nat.lt_succ_of_lt (hlt v (List.mem_of_mem_tail h1))
      · exact Nat.lt_succ_of_lt (hlt v h1)
    · rw [List.mem_singleton] at h1
      subst h1
      exact Nat.lt_succ_self _
  · rw [playOneOffStep_voices]
    rw [List.length_append]
    have hm4 : maxVoices = 4 := rfl
    split
    · rw [List.length_tail]
      simp only [List.length_singleton]
      omega
    · simp only [List.length_singleton]
      omega

theorem oneOffInv_expire (s : OneOffState) (j : Nat) (h : OneOffInv s) :
    OneOffInv (expireStep s j) := by
  obtain ⟨hp, hlt, hlen⟩ := h
  refine ⟨hp.sublist (List.erase_sublist _ _), ?_, ?_⟩
  · intro v hv
    exact hlt v (List.mem_of_mem_erase hv)
  · exact le_trans (List.erase_sublist _ _).length_le hlen

theorem oneOffInv_run (tr : List OneOffEvent) : OneOffInv (runOneOff tr) := by
  suffices h : ∀ s, OneOffInv s → OneOffInv (tr.foldl oneOffStep s) from
    h _ oneOffInv_init
  induction tr with
  | nil => intro s hs; exact hs
  | cons ev tl ih =>
    intro s hs
    refine ih _ ?_
    cases ev with
    | play => exact oneOffInv_play s hs
    | expire j => exact oneOffInv_expire s j hs

/-- Claim C1: over every event trace the active one-off voice map holds
at most maxVoices entries; a play evicts exactly when the map is at
capacity, and the evicted voice is the least-recently-inserted
still-active one (voice ids equal their insertion ranks here, so least
id means least recently inserted). -/
theorem oneOff_voice_bound_and_eviction :
    ∀ tr : List OneOffEvent,
      (runOneOff tr).voices.length ≤ maxVoices ∧
      (∀ ev : Nat, (playOneOffStep (runOneOff tr)).2 = some ev →
        ev ∈ (runOneOff tr).voices ∧ ∀ v ∈ (runOneOff tr).voices, ev ≤ v) ∧
      ((playOneOffStep (runOneOff tr)).2 = none ↔
        (runOneOff tr).voices.length < maxVoices) := by
  intro tr
  obtain ⟨hp, hlt, hlen⟩ := oneOffInv_run tr
  refine ⟨hlen, ?_, ?_⟩
  · intro ev hev
    rw [playOneOffStep_evicted] at hev
    by_cases hc : maxVoices ≤ (runOneOff tr).voices.length
    · rw [if_pos hc] at hev
      obtain ⟨t, ht⟩ : ∃ t, (runOneOff tr).voices = ev :: t := by
        cases hvv : (runOneOff tr).voices with
        | nil => rw [hvv] at hev; simp at hev
        | cons a t =>
          rw [hvv] at hev
          simp only [List.head?_cons, Option.some.injEq] at hev
          exact ⟨t, by rw [hev]⟩
      constructor
      · rw [ht]; exact List.mem_cons_self _ _
      · intro v hv
        rw [ht] at hv hp
        rcases List.mem_cons.mp hv with h1 | h1
        · exact le_of_eq h1.symm
        · exact le_of_lt ((List.pairwise_cons.mp hp).1 v h1)
    · rw [if_neg hc] at hev
      exact absurd hev (by simp)
  · rw [playOneOffStep_evicted]
    by_cases hc : maxVoices ≤ (runOneOff tr).voices.length
    · rw [if_pos hc]
      apply iff_of_false
      · intro hnone
        cases hvv : (runOneOff tr).voices with
        | nil => rw [hvv] at hc; simp [maxVoices] at hc
        | cons a t => rw [hvv] at hnone; simp at hnone
      · exact Nat.not_lt.mpr hc
    · rw [if_neg hc]
      exact iff_of_true rfl (Nat.not_le.mp hc)

/-- Claim C1 witness: after five plays the fifth play has evicted voice
0 and a sixth play would evict voice 1, the least-recently-inserted of
the four active voices. -/
theorem oneOff_voice_bound_and_eviction_witness :
    (playOneOffStep (runOneOff fivePlays)).2 = some 1 ∧
      ((runOneOff fivePlays).voices.length ≤ maxVoices ∧
        (1 ∈ (runOneOff fivePlays).voices ∧
          ∀ v ∈ (runOneOff fivePlays).voices, 1 ≤ v)) :=
  ⟨by decide,
    ⟨(oneOff_voice_bound_and_eviction fivePlays).1,
      (oneOff_voice_bound_and_eviction fivePlays).2.1 1 (by decide)⟩⟩

/-- Claim C8 counterexample: the fifth play evicts voice 0, yet the
timeout bookkeeping still holds the entry for voice 0: the scheduled
removal timer of an evicted voice is never cancelled. -/
theorem evicted_timer_not_cancelled_cex :
    (runOneOff fivePlays).voices = [1, 2, 3, 4] ∧
      (runOneOff fivePlays).timeouts = [0, 1, 2, 3, 4] ∧
      0 ∉ (runOneOff fivePlays).voices ∧ 0 ∈ (runOneOff fivePlays).timeouts := by
  refine ⟨by decide, by decide, by decide, by decide⟩

/-- Claim C8 amended: a play never cancels any pending removal timer
(eviction included, it only appends the new timer), and when the expiry
callback later fires for an already-evicted voice its voice-map delete
is a no-op, so the voice map stays correct despite the uncancelled
timer. -/
theorem evicted_timer_not_cancelled_amended :
    ∀ (tr : List OneOffEvent) (j : Nat),
      (playOneOffStep (runOneOff tr)).1.timeouts =
        (runOneOff tr).timeouts ++ [(runOneOff tr).next] ∧
      (j ∉ (runOneOff tr).voices →
        (expireStep (runOneOff tr) j).voices = (runOneOff tr).voices) := by
  intro tr j
  refine ⟨playOneOffStep_timeouts _, ?_⟩
  intro hj
  show (runOneOff tr).voices.erase j = _
  exact List.erase_of_not_mem hj

/-- Claim C8 amended witness: firing the pending timer of evicted voice
0 after five plays leaves the voice map unchanged. -/
theorem evicted_timer_not_cancelled_amended_witness :
    0 ∉ (runOneOff fivePlays).voices ∧
      ((playOneOffStep (runOneOff fivePlays)).1.timeouts =
        (runOneOff fivePlays).timeouts ++ [(runOneOff fivePlays).next] ∧
        (expireStep (runOneOff fivePlays) 0).voices = (runOneOff fivePlays).voices) :=
  ⟨by decide,
    ⟨(evicted_timer_not_cancelled_amended fivePlays 0).1,
      (evicted_timer_not_cancelled_amended fivePlays 0).2 (by decide)⟩⟩

end SampleSeq
